import Mathlib

/-
Verification of the PackageManager reconciliation engine
(`src/PackageManager/main.py`, class `PackageManager`).

The embedding renders `install` and `uninstall` (and their nested helpers
`getInstalledPackages`, `installPackage`, `getMissingDependencies`) as pure
Lean functions.  Every `subprocess.run` call is modelled as consuming the
next entry of an oracle (the script of process results, indexed by call
count) while recording the argv list in a trace; the observable state
threads the environment-existence flag, the on-disk manifest dependency
list, and counters for manifest loads/saves and virtualenv creations.

The manifest wrapper `PyProject` lives in `config_file.py`, which is not
part of the sources; its load/save behaviour is modelled from the spec
(Manifest Store, spec section 4.2) as reading/writing the dependency list.
-/

set_option linter.unusedVariables false

namespace PM

/-- Exit code and captured output of one spawned installer process
(`subprocess.run` with `capture_output=True` in `main.py`). -/
structure ProcResult where
  returncode : Int
  stdout : String
  stderr : String
deriving DecidableEq

/-- The script of process results: result of the k-th spawned process, in
program order.  The real environment lives outside the program; the code
only observes process results, so it is modelled as an oracle indexed by
the running call count. -/
abbrev Oracle := Nat → ProcResult

/-- An argv list, as passed to `subprocess.run`. -/
abbrev Cmd := List String

/-- Observable state threaded through one command invocation:
whether an environment exists at `self.envPath`, the manifest dependency
list currently on disk, the spawned-process count and trace, and counters
for manifest loads, manifest saves and virtualenv creations. -/
structure PMState where
  envExists : Bool
  diskDeps : List String
  nCalls : Nat
  calls : List Cmd
  loads : Nat
  saves : Nat
  venvCreates : Nat
deriving DecidableEq

/-- Fresh state for one command invocation. -/
def initState (env : Bool) (deps : List String) : PMState :=
  { envExists := env, diskDeps := deps, nCalls := 0, calls := [],
    loads := 0, saves := 0, venvCreates := 0 }

/-- Source: `GLOBAL_PIP_EXECUTABLE = f"{GLOBAL_PYTHON_EXECUTABLE} -m pip"`;
the concrete interpreter path is irrelevant, a fixed token stands for it. -/
def GLOBAL_PIP_EXECUTABLE : String := "python -m pip"

/-- Source: `f"{self.envPath}/{BIN_FOLDER}/pip"` with `envPath = ".ppm.env"`;
`BIN_FOLDER` is fixed to the POSIX value `"bin"` (the win32 branch of the
platform check is not modelled). -/
def envPip : String := ".ppm.env/bin/pip"

/-- Installer binary selected by the global flag (the source repeats this
choice inline in each branch). -/
def pipBin (g : Bool) : String := if g then GLOBAL_PIP_EXECUTABLE else envPip

/-- Model of `subprocess.run(cmd, capture_output=True)`: consume the next
scripted result and record the argv list. -/
def spRun (o : Oracle) (cmd : Cmd) (s : PMState) : ProcResult × PMState :=
  (o s.nCalls,
   { s with nCalls := s.nCalls + 1, calls := s.calls ++ [cmd] })

/-- Source: `createVenv` runs `virtualenv.cli_run([self.envPath])`, which
materializes the environment. -/
def createVenv (s : PMState) : PMState :=
  { s with envExists := true, venvCreates := s.venvCreates + 1 }

/-- Modelled from the spec: the `PyProject` manifest store
(`config_file.py` is not among the sources).  `config = PyProject(path)`
loads the manifest; only the `project.dependencies` list is relevant to
the claims, so loading yields the on-disk dependency list. -/
def loadConfig (s : PMState) : List String × PMState :=
  (s.diskDeps, { s with loads := s.loads + 1 })

/-- Modelled from the spec: `config.save()` persists the in-memory
manifest (here: its dependency list) back to disk. -/
def saveConfig (cfg : List String) (s : PMState) : PMState :=
  { s with diskDeps := cfg, saves := s.saves + 1 }

/-- Fuel-indexed scanner behind `pySplit`: emit the accumulated chunk at
each non-overlapping occurrence of the separator, scanning left to right
(the fuel is the remaining text length plus one, so it never runs out). -/
def pySplitAux (sep : List Char) : Nat → List Char → List Char → List String
  | 0, acc, rest => [String.mk (acc.reverse ++ rest)]
  | _ + 1, acc, [] => [String.mk acc.reverse]
  | fuel + 1, acc, c :: cs =>
    if sep.isPrefixOf (c :: cs) then
      String.mk acc.reverse :: pySplitAux sep fuel [] ((c :: cs).drop sep.length)
    else
      pySplitAux sep fuel (c :: acc) cs

/-- Python `s.split(sep)` with an explicit nonempty separator: split on
every occurrence, keeping empty chunks (`"".split(x) == [""]`). -/
def pySplit (s sep : String) : List String :=
  pySplitAux sep.data (s.data.length + 1) [] s.data

/-- Python `s.startswith(pre)`. -/
def pyStartsWith (s pre : String) : Bool := pre.data.isPrefixOf s.data

/-- Join chunks with a separator (inverse of `pySplit`, used to rebuild
the left part of an `rsplit`). -/
def joinSep (sep : String) : List String → String
  | [] => ""
  | [x] => x
  | x :: xs => x ++ sep ++ joinSep sep xs

/-- Python `tok.rsplit("-", 1)` as used on `name-version` tokens: split at
the last `-`.  `none` models the `ValueError` raised when the separator
does not occur (Python unpacking `name, version = ...` then fails). -/
def rsplitDash1 (t : String) : Option (String × String) :=
  match (pySplit t "-").reverse with
  | [] => none
  | [_] => none
  | last :: rest => some (joinSep "-" rest.reverse, last)

/-- Scan for the first `,` in the capture of the regex `requires (.+?),`;
a newline aborts the match (Python `.` does not cross newlines). -/
def splitAtComma : List Char → Option (List Char × List Char)
  | [] => none
  | ',' :: rest => some ([], rest)
  | '\n' :: _ => none
  | c :: rest => (splitAtComma rest).map (fun p => (c :: p.1, p.2))

/-- Lazy nonempty capture of `(.+?),` starting at the given position:
at least one character (not a newline) followed by the next comma. -/
def takeToComma : List Char → Option (List Char × List Char)
  | [] => none
  | '\n' :: _ => none
  | c :: rest => (splitAtComma rest).map (fun p => (c :: p.1, p.2))

/-- Characters of the literal part of the pattern `requires (.+?),`. -/
def reqMarker : List Char := "requires ".data

/-- Fuel-indexed scanner for `re.findall(r"requires (.+?),", stdout)`:
at each position, match the marker and a lazy capture up to the next
comma, emit the capture and resume after the comma; otherwise advance one
character, as the regex engine does. -/
def findallAux : Nat → List Char → List String
  | 0, _ => []
  | _ + 1, [] => []
  | fuel + 1, c :: tl =>
    if reqMarker.isPrefixOf (c :: tl) then
      match takeToComma ((c :: tl).drop reqMarker.length) with
      | some (cap, rest) => String.mk cap :: findallAux fuel rest
      | none => findallAux fuel tl
    else
      findallAux fuel tl

/-- Source line 129: `re.findall(r"requires (.+?),", res.stdout.decode())`. -/
def findallRequires (s : String) : List String :=
  findallAux (s.length + 1) s.data

/-- Source lines 78-87, nested `getInstalledPackages`: run `pip freeze`
against the selected target, raise on a non-zero exit (the `.error` branch
models `raise Exception("Failed to get installed packages ...")`),
otherwise split the decoded stdout on newlines. -/
def getInstalledPackages (o : Oracle) (g : Bool) (s : PMState) :
    Except String (List String) × PMState :=
  let (res, s1) := spRun o [pipBin g, "freeze"] s
  if res.returncode ≠ 0 then
    (.error "Failed to get installed packages", s1)
  else
    (.ok (pySplit res.stdout "\n"), s1)

/-- Source lines 112-119, one token of a `Successfully installed` line:
`name, version = package.rsplit("-", 1)`, build `name==version`, append to
the dependency list only if not already present.  The Bool flags a
`ValueError` from `rsplit` (tokens without a dash); the list returned is
the in-memory dependency list after the tokens processed so far. -/
def applyTokens (cfg : List String) : List String → Bool × List String
  | [] => (false, cfg)
  | t :: ts =>
    match rsplitDash1 t with
    | none => (true, cfg)
    | some (n, v) =>
      let versionString := n ++ "==" ++ v
      applyTokens
        (if versionString ∈ cfg then cfg else cfg ++ [versionString]) ts

/-- Source lines 112-120: scan every stdout line, and for each line
starting with `Successfully installed` process the space-separated tokens
after the first two words.  A raised `ValueError` (Bool `true`) stops the
scan with the partially updated list, as the Python exception would. -/
def applyLines (cfg : List String) : List String → Bool × List String
  | [] => (false, cfg)
  | l :: ls =>
    if pyStartsWith l "Successfully installed" then
      match applyTokens cfg ((pySplit l " ").drop 2) with
      | (true, cfg') => (true, cfg')
      | (false, cfg') => applyLines cfg' ls
    else
      applyLines cfg ls

/-- Normal or exceptional completion of the nested `installPackage`. -/
inductive IPRes where
  /-- Python return value: `some code` from an explicit `return`,
  `none` for the implicit `None` on the global-mode success path
  (the source's global branch has no `return` after a zero exit). -/
  | val (r : Option Int)
  /-- An exception propagating out (the `ValueError` from `rsplit`). -/
  | raised (msg : String)
deriving DecidableEq

/-- Source lines 89-122, nested `installPackage(package, version, installDeps)`:
qualify the package if a version is given; global mode runs the global
installer and returns the exit code on failure (falling off the end —
`None` — on success, touching neither the config nor the disk); isolated
mode runs the environment installer, returns a non-zero exit code as is,
and on success parses the `Successfully installed` lines into the
dependency list and saves the config.  Mirrors the source's
`if installDeps: cmd.append("--no-deps")` literally. -/
def installPackageF (o : Oracle) (g : Bool) (package : String)
    (version : Option String) (installDeps : Bool)
    (cfg : List String) (s : PMState) : IPRes × List String × PMState :=
  let package :=
    match version with
    | some v => package ++ "==" ++ v
    | none => package
  if g then
    let cmd := [GLOBAL_PIP_EXECUTABLE, "install", package]
    let cmd := if installDeps then cmd ++ ["--no-deps"] else cmd
    let (res, s1) := spRun o cmd s
    -- print(res.stderr.decode())
    if res.returncode ≠ 0 then
      -- print(res.stderr.decode())
      (.val (some res.returncode), cfg, s1)
    else
      (.val none, cfg, s1)
  else
    let cmd := [envPip, "install", package]
    let cmd := if installDeps then cmd ++ ["--no-deps"] else cmd
    let (res, s1) := spRun o cmd s
    if res.returncode ≠ 0 then
      -- print(res.stderr.decode())
      (.val (some res.returncode), cfg, s1)
    else
      match applyLines cfg (pySplit res.stdout "\n") with
      | (true, cfg') => (.raised "ValueError", cfg', s1)
      | (false, cfg') => (.val (some 0), cfg', saveConfig cfg' s1)

/-- Source lines 124-130, nested `getMissingDependencies`: run the
environment's `pip check` (note: the source uses the environment binary
even in global mode), raise on any non-zero exit, otherwise return the
`requires (.+?),` captures from stdout. -/
def getMissingDependencies (o : Oracle) (s : PMState) :
    Except String (List String) × PMState :=
  let (res, s1) := spRun o [envPip, "check"] s
  if res.returncode ≠ 0 then
    (.error "Failed to check for missing dependencies", s1)
  else
    (.ok (findallRequires res.stdout), s1)

/-- Completion of the work-list loop: it can only finish or propagate an
exception — the per-entry return codes of `installPackage` are discarded
by the loop body (source lines 139-149 call `installPackage(...)` as a
bare statement). -/
inductive LoopRes where
  | finished
  | raised (msg : String)
deriving DecidableEq

/-- Source lines 139-149: the install work loop.  The two source loops
(manifest-driven for an empty request, request-driven otherwise) have the
same body and are shared here; the work list is the snapshot chosen by the
caller.  Skips entries literally present in the installed snapshot
(`if dep not in installedPackages` — Python list membership on the freeze
lines), otherwise calls `installPackage(entry, installDeps=False)` and
ignores its return value. -/
def installLoop (o : Oracle) (g : Bool) (installed : List String) :
    List String → List String → PMState → LoopRes × List String × PMState
  | [], cfg, s => (.finished, cfg, s)
  | p :: ps, cfg, s =>
    if p ∈ installed then
      -- print(f"... {p} is already installed")
      installLoop o g installed ps cfg s
    else
      match installPackageF o g p none false cfg s with
      | (.raised m, cfg', s') => (.raised m, cfg', s')
      | (.val _, cfg', s') => installLoop o g installed ps cfg' s'

/-- Result of a whole command: a returned exit code, a propagating
exception, or exhaustion of the recursion fuel (the model of unbounded
recursion through the missing-dependency loop). -/
inductive Outcome where
  | ok (code : Int)
  | raised (msg : String)
  | fuelOut
deriving DecidableEq

/-- Source lines 151-153: `for dep in missingDeps: self.install([dep], _global)`.
A returned exit code of the recursive call is discarded; an exception (or
fuel exhaustion) propagates.  After the loop, `install` returns 0, so the
empty case yields `ok 0`. -/
def recLoop (f : List String → PMState → Outcome × PMState) :
    List String → PMState → Outcome × PMState
  | [], s => (.ok 0, s)
  | d :: ds, s =>
    match f [d] s with
    | (.ok _, s') => recLoop f ds s'
    | (.raised m, s') => (.raised m, s')
    | (.fuelOut, s') => (.fuelOut, s')

/-- Source lines 133-155, the body of `install` after the config load and
environment check: fetch the installed snapshot, run the work loop over
the manifest dependencies (empty request) or the requested names — the
two source loops share one body — then recursively reconcile every name
the check reports missing (`rec` is the recursive `self.install` at the
remaining fuel) and return 0. -/
def installPass (o : Oracle) (g : Bool)
    (rec : List String → PMState → Outcome × PMState)
    (cfg names : List String) (s : PMState) : Outcome × PMState :=
  match getInstalledPackages o g s with
  | (.error m, s) => (.raised m, s)
  | (.ok installedPackages, s) =>
    let workList := if names.isEmpty then cfg else names
    match installLoop o g installedPackages workList cfg s with
    | (.raised m, _, s) => (.raised m, s)
    | (.finished, _, s) =>
      match getMissingDependencies o s with
      | (.error m, s) => (.raised m, s)
      | (.ok missingDeps, s) => recLoop rec missingDeps s

/-- Source lines 72-155, `PackageManager.install(names, _global)`:
load the config, create the environment if absent, then run the
reconciliation pass.  The fuel bounds the recursion depth of
`self.install([dep], _global)`; running out models non-termination. -/
def install : Nat → Oracle → List String → Bool → PMState → Outcome × PMState
  | 0, _, _, _, s => (.fuelOut, s)
  | fuel + 1, o, names, g, s =>
    let (cfg, s) := loadConfig s
    let s := if s.envExists then s else createVenv s
    installPass o g (fun ns t => install fuel o ns g t) cfg names s

/-- First manifest entry whose bare-name prefix (`dep.split("==")[0]`)
equals the requested name — the `for dep in deps` search of source
lines 190-194. -/
def findBare (name : String) : List String → Option String
  | [] => none
  | d :: ds =>
    if (pySplit d "==").headD "" = name then some d else findBare name ds

/-- Completion of the uninstall name loop: finished normally, returned
early with the installer's non-zero exit code, or raised. -/
inductive URes where
  | finished
  | earlyRet (code : Int)
  | raised (msg : String)
deriving DecidableEq

/-- Source lines 180-207, the isolated-mode uninstall loop.  A name
containing `==` must match a manifest entry exactly (it is removed and
the version is re-extracted from the name); a bare name matches the first
entry with that bare-name prefix (version extracted, entry removed).
Unmatched names are skipped.  The installer is invoked with
`f"{name}=={version}"` — note `name` here is the requested name, which for
a version-qualified request already contains `==version`.  A non-zero exit
returns it at once (the config is then never saved).  `IndexError` models
`dep.split("==")[1]` on an entry without `==`. -/
def uninstallLoop (o : Oracle) :
    List String → List String → PMState → URes × List String × PMState
  | [], deps, s => (.finished, deps, s)
  | name :: rest, deps, s =>
    if (pySplit name "==").length ≥ 2 then
      if name ∈ deps then
        let deps := deps.erase name
        match (pySplit name "==").get? 1 with
        | none => (.raised "IndexError", deps, s)
        | some version =>
          let (res, s) :=
            spRun o [envPip, "uninstall", "-y", name ++ "==" ++ version] s
          if res.returncode ≠ 0 then
            -- print(res.stderr.decode())
            (.earlyRet res.returncode, deps, s)
          else
            -- print(f"Uninstalled ...")
            uninstallLoop o rest deps s
      else
        -- print(f"Package {name} not found in dependencies")
        uninstallLoop o rest deps s
    else
      match findBare name deps with
      | none =>
        -- for/else: print(f"Package {name} not found in dependencies")
        uninstallLoop o rest deps s
      | some d =>
        match (pySplit d "==").get? 1 with
        | none => (.raised "IndexError", deps, s)
        | some version =>
          let deps := deps.erase d
          let (res, s) :=
            spRun o [envPip, "uninstall", "-y", name ++ "==" ++ version] s
          if res.returncode ≠ 0 then
            -- print(res.stderr.decode())
            (.earlyRet res.returncode, deps, s)
          else
            -- print(f"Uninstalled ...")
            uninstallLoop o rest deps s

/-- Source lines 157-209, `PackageManager.uninstall(names, _global)`:
return 1 at once if no environment exists (before the config is loaded);
load the config; in global mode pass all names to one `uninstall -y`
invocation and return its exit code verbatim; in isolated mode run the
name loop and, when it finishes the whole batch, save the config and
return 0. -/
def uninstall (o : Oracle) (names : List String) (g : Bool) (s : PMState) :
    Outcome × PMState :=
  if ¬ s.envExists then
    -- print("No environment found")
    (.ok 1, s)
  else
    let (cfg, s) := loadConfig s
    if g then
      let (res, s) :=
        spRun o ([GLOBAL_PIP_EXECUTABLE, "uninstall", "-y"] ++ names) s
      (.ok res.returncode, s)
    else
      match uninstallLoop o names cfg s with
      | (.raised m, _, s) => (.raised m, s)
      | (.earlyRet c, _, s) => (.ok c, s)
      | (.finished, deps, s) => (.ok 0, saveConfig deps s)

/-- A trace entry that invokes the installer's `install` subcommand
(all such commands are built as `[binary, "install", package, ...]`). -/
def isInstallCmd (c : Cmd) : Bool := c.get? 1 == some "install"

/-! ## Scripted environments used by the theorems -/

/-- Every spawned process succeeds with empty output. -/
def zeroOracle : Oracle := fun _ => ⟨0, "", ""⟩

/-- Script for C1: freeze succeeds empty, installing `a` fails with exit 1,
installing `b` succeeds, the check is clean. -/
def oracleC1 : Oracle := fun k =>
  match k with
  | 0 => ⟨0, "", ""⟩
  | 1 => ⟨1, "", "boom"⟩
  | 2 => ⟨0, "Successfully installed b-1.0", ""⟩
  | _ => ⟨0, "", ""⟩

/-- Script for C3: the freeze snapshot reports `requests==2.26.0`
installed; everything else succeeds with empty output. -/
def oracleC3 : Oracle := fun k =>
  if k = 0 then ⟨0, "requests==2.26.0", ""⟩ else ⟨0, "", ""⟩

/-- Script for C5: freeze empty, installing `a` succeeds, then the check
subcommand exits 1 while reporting the missing dependency `b` — the
"problems found" case of the underlying installer. -/
def oracleC5 : Oracle := fun k =>
  match k with
  | 0 => ⟨0, "", ""⟩
  | 1 => ⟨0, "Successfully installed a-1.0", ""⟩
  | _ => ⟨1, "a 1.0 requires b, which is not installed.", ""⟩

/-- Check output reporting the dependency cycle A requires B, B requires A. -/
def cycleCheckOut : String :=
  "A 1.0 requires B, which is not installed.\nB 1.0 requires A, which is not installed."

/-- Script for C6.  Each recursion level spawns exactly three processes —
freeze, install, check — so the script repeats with period 3: the freeze
snapshot always lists A and B, installs succeed silently, and the check
always reports the A/B cycle with a zero exit (exit codes of the external
installer are not constrained by this repository). -/
def cycleOracle : Oracle := fun k =>
  match k % 3 with
  | 0 => ⟨0, "A==1.0\nB==1.0", ""⟩
  | 1 => ⟨0, "", ""⟩
  | _ => ⟨0, cycleCheckOut, ""⟩

/-- Script for C8: freeze empty, both requested installs succeed and each
reports one `Successfully installed` token, the check is clean. -/
def oracleC8 : Oracle := fun k =>
  match k with
  | 1 => ⟨0, "Successfully installed a-1.0", ""⟩
  | 2 => ⟨0, "Successfully installed b-1.0", ""⟩
  | _ => ⟨0, "", ""⟩

/-- Oracle whose first call (the freeze) returns the given stdout and
whose remaining calls succeed with empty output. -/
def skipOracle (freezeOut : String) : Oracle := fun k =>
  if k = 0 then ⟨0, freezeOut, ""⟩ else ⟨0, "", ""⟩

end PM

namespace PM

/-! ## Claims settled on concrete runs -/

/-- C1: the claim says a non-zero exit of the installer's install
subcommand for a work-list entry is returned at once and stops the pass.
The code discards the exit code `installPackage` returns (lines 144-149
call it as a bare statement) and `install` ends with `return 0`: with
installing `a` failing (exit 1, process index 1), the pass still installs
`b` (the command appears in the trace) and the whole command returns 0. -/
theorem C1_install_error_not_propagated :
    (install 5 oracleC1 ["a", "b"] false (initState true [])).1 = .ok 0 ∧
    (install 5 oracleC1 ["a", "b"] false (initState true [])).2.calls.get? 1
      = some [envPip, "install", "a"] ∧
    oracleC1 1 = ⟨1, "", "boom"⟩ ∧
    [envPip, "install", "b"]
      ∈ (install 5 oracleC1 ["a", "b"] false (initState true [])).2.calls := by
  decide

/-- C2: on a manifest holding `requests==2.26.0`, `uninstall(["requests"])`
removes the entry and invokes the installer with `requests==2.26.0`, but
`uninstall(["requests==2.26.0"])` — though it removes the same entry —
invokes the installer with `requests==2.26.0==2.26.0` (line 199 appends
`=={version}` to a name that already carries the version), so the two
calls are not identical and the second does not pass the fully qualified
string. -/
theorem C2_uninstall_qualified_doubled_version :
    (uninstall zeroOracle ["requests"] false
        (initState true ["requests==2.26.0"])).2.calls
      = [[envPip, "uninstall", "-y", "requests==2.26.0"]] ∧
    (uninstall zeroOracle ["requests"] false
        (initState true ["requests==2.26.0"])).2.diskDeps = [] ∧
    (uninstall zeroOracle ["requests==2.26.0"] false
        (initState true ["requests==2.26.0"])).2.calls
      = [[envPip, "uninstall", "-y", "requests==2.26.0==2.26.0"]] ∧
    (uninstall zeroOracle ["requests==2.26.0"] false
        (initState true ["requests==2.26.0"])).2.diskDeps = [] ∧
    "requests==2.26.0==2.26.0" ≠ "requests==2.26.0" := by
  decide

/-- C5: the claim says a non-zero check exit that merely reports
dependency problems is treated as a successful, informative result.  The
code raises on every non-zero exit of the check subcommand (line 127):
with the check exiting 1 while its stdout reports exactly the missing
package `b` (which the parser would have extracted), the whole install
raises the generic check-failure exception instead. -/
theorem C5_check_nonzero_always_raises :
    (install 3 oracleC5 ["a"] false (initState true [])).1
      = .raised "Failed to check for missing dependencies" ∧
    (getMissingDependencies oracleC5
        { initState true [] with nCalls := 2 }).1
      = .error "Failed to check for missing dependencies" ∧
    findallRequires "a 1.0 requires b, which is not installed." = ["b"] :=
  ⟨by decide, rfl, by decide⟩

/-- C7: if no environment exists, `uninstall` returns 1 immediately, for
every argument list and both modes, and the entire state — manifest loads,
saves, the on-disk dependency list, the process trace — is untouched. -/
theorem C7_uninstall_no_env_fails_fast (o : Oracle) (names : List String)
    (g : Bool) (s : PMState) (h : s.envExists = false) :
    uninstall o names g s = (.ok 1, s) := by
  simp [uninstall, h]

/-- Witness for C7 at a concrete input: environment absent, a nonempty
manifest, isolated mode. -/
theorem C7_witness :
    (initState false ["requests==2.26.0"]).envExists = false ∧
    uninstall zeroOracle ["requests"] false
        (initState false ["requests==2.26.0"])
      = (.ok 1, initState false ["requests==2.26.0"]) :=
  ⟨rfl, C7_uninstall_no_env_fails_fast zeroOracle ["requests"] false
    (initState false ["requests==2.26.0"]) rfl⟩

/-- C9: with an empty manifest dependency list and an empty installed
snapshot, `install([])` exits 0 and never invokes the installer's install
subcommand; the only spawned processes are the freeze and check queries,
and the manifest is never saved. -/
theorem C9_empty_sync_no_installs :
    (install 2 zeroOracle [] false (initState true [])).1 = .ok 0 ∧
    ((install 2 zeroOracle [] false (initState true [])).2.calls.filter
      isInstallCmd) = [] ∧
    (install 2 zeroOracle [] false (initState true [])).2.saves = 0 ∧
    (install 2 zeroOracle [] false (initState true [])).2.calls
      = [[envPip, "freeze"], [envPip, "check"]] := by
  decide

/-- Counterexample for C3: the work-list entry `requests` has its bare
name present in the snapshot entry `requests==2.26.0`, yet the pass does
invoke the installer's install subcommand for it — the source compares
the entry against whole `name==version` freeze lines (line 146), not bare
names. -/
theorem C3_counterexample :
    pySplit (oracleC3 0).stdout "\n" = ["requests==2.26.0"] ∧
    (pySplit "requests==2.26.0" "==").headD "" = "requests" ∧
    [envPip, "install", "requests"]
      ∈ (install 2 oracleC3 ["requests"] false
          (initState true ["requests==2.26.0"])).2.calls := by
  decide

/-- Counterexample for C4: invoked with the global flag and an empty name
list, `install` takes its work list from the manifest's dependency list
(line 136): with `x==1` in the manifest a global install of `x==1` is
spawned, with an empty manifest it is not — the dependency list is read
in global mode. -/
theorem C4_counterexample :
    [GLOBAL_PIP_EXECUTABLE, "install", "x==1"]
      ∈ (install 3 zeroOracle [] true (initState true ["x==1"])).2.calls ∧
    (install 3 zeroOracle [] true (initState true [])).2.calls
      = [[GLOBAL_PIP_EXECUTABLE, "freeze"], [envPip, "check"]] := by
  decide

/-- Counterexample for C8: a single top-level `install` invocation that
freshly installs two packages persists the manifest twice (`config.save()`
sits inside the per-package helper, line 121), and the trace length 4
(freeze, two installs, check) shows no recursive sub-invocation
contributed — contradicting "persisted at most once per invocation, at
the end of the pass". -/
theorem C8_counterexample :
    (install 5 oracleC8 ["a", "b"] false (initState true [])).1 = .ok 0 ∧
    (install 5 oracleC8 ["a", "b"] false (initState true [])).2.saves = 2 ∧
    (install 5 oracleC8 ["a", "b"] false (initState true [])).2.calls.length
      = 4 := by
  decide

/-! ## State-shape facts about the helpers -/

/-- The state after `getInstalledPackages` records exactly the freeze
invocation, independent of the exit code. -/
theorem getInstalledPackages_snd (o : Oracle) (g : Bool) (s : PMState) :
    (getInstalledPackages o g s).2
      = { s with
          nCalls := s.nCalls + 1,
          calls := s.calls ++ [[pipBin g, "freeze"]] } := by
  simp only [getInstalledPackages, spRun]
  split <;> rfl

/-- The state after `getMissingDependencies` records exactly the check
invocation, independent of the exit code. -/
theorem getMissingDependencies_snd (o : Oracle) (s : PMState) :
    (getMissingDependencies o s).2
      = { s with
          nCalls := s.nCalls + 1,
          calls := s.calls ++ [[envPip, "check"]] } := by
  simp only [getMissingDependencies, spRun]
  split <;> rfl

/-- Global-mode `installPackage` returns normally (never raises), leaves
the in-memory config untouched, and changes the state only by recording
its single process invocation — in particular it never saves and never
touches the on-disk dependency list. -/
theorem installPackageF_global_frame (o : Oracle) (p : String)
    (v : Option String) (d : Bool) (cfg : List String) (s : PMState) :
    (∃ r, (installPackageF o true p v d cfg s).1 = IPRes.val r) ∧
    (installPackageF o true p v d cfg s).2.1 = cfg ∧
    (installPackageF o true p v d cfg s).2.2.saves = s.saves ∧
    (installPackageF o true p v d cfg s).2.2.diskDeps = s.diskDeps := by
  by_cases h : (o s.nCalls).returncode ≠ 0
  · refine ⟨⟨some (o s.nCalls).returncode, ?_⟩, ?_, ?_, ?_⟩ <;>
      simp [installPackageF, spRun, h]
  · refine ⟨⟨none, ?_⟩, ?_, ?_, ?_⟩ <;>
      simp [installPackageF, spRun, h]

/-- The work loop in global mode never saves and never changes the
on-disk dependency list. -/
theorem installLoop_global_frame (o : Oracle) (installed : List String)
    (l : List String) :
    ∀ (cfg : List String) (s : PMState),
      (installLoop o true installed l cfg s).2.2.saves = s.saves ∧
      (installLoop o true installed l cfg s).2.2.diskDeps = s.diskDeps := by
  induction l with
  | nil => intro cfg s; exact ⟨rfl, rfl⟩
  | cons p ps ih =>
    intro cfg s
    by_cases hp : p ∈ installed
    · simpa only [installLoop, if_pos hp] using ih cfg s
    · obtain ⟨⟨r, hr⟩, hcfg, hsv, hdk⟩ :=
        installPackageF_global_frame o p none false cfg s
      rcases hipf : installPackageF o true p none false cfg s with ⟨ir, cfg', s'⟩
      rw [hipf] at hr hsv hdk
      simp only at hr hsv hdk
      subst hr
      simp only [installLoop, if_neg hp, hipf]
      obtain ⟨g1, g2⟩ := ih cfg' s'
      exact ⟨g1.trans hsv, g2.trans hdk⟩

/-- The missing-dependency loop preserves any save/disk frame its
recursive calls preserve. -/
theorem recLoop_frame (f : List String → PMState → Outcome × PMState)
    (hf : ∀ ns t, (f ns t).2.saves = t.saves ∧ (f ns t).2.diskDeps = t.diskDeps) :
    ∀ (ds : List String) (s : PMState),
      (recLoop f ds s).2.saves = s.saves ∧
      (recLoop f ds s).2.diskDeps = s.diskDeps := by
  intro ds
  induction ds with
  | nil => intro s; exact ⟨rfl, rfl⟩
  | cons dep ds ihd =>
    intro s
    obtain ⟨h1, h2⟩ := hf [dep] s
    rcases hfd : f [dep] s with ⟨out, s'⟩
    rw [hfd] at h1 h2
    cases out with
    | ok c =>
      simp only [recLoop, hfd]
      obtain ⟨g1, g2⟩ := ihd s'
      exact ⟨g1.trans h1, g2.trans h2⟩
    | raised m => simp only [recLoop, hfd]; exact ⟨h1, h2⟩
    | fuelOut => simp only [recLoop, hfd]; exact ⟨h1, h2⟩

/-- A global-mode reconciliation pass never saves the manifest and never
changes the on-disk dependency list, provided its recursive calls do not
either. -/
theorem installPass_global_frame (o : Oracle)
    (rec : List String → PMState → Outcome × PMState)
    (hrec : ∀ ns t, (rec ns t).2.saves = t.saves ∧
      (rec ns t).2.diskDeps = t.diskDeps)
    (cfg names : List String) (s : PMState) :
    (installPass o true rec cfg names s).2.saves = s.saves ∧
    (installPass o true rec cfg names s).2.diskDeps = s.diskDeps := by
  unfold installPass
  rcases hgi : getInstalledPackages o true s with ⟨E, s2⟩
  have hs2 : s2 = { s with
      nCalls := s.nCalls + 1,
      calls := s.calls ++ [[pipBin true, "freeze"]] } := by
    have h := getInstalledPackages_snd o true s
    rw [hgi] at h
    exact h
  have hs2sv : s2.saves = s.saves := by rw [hs2]
  have hs2dk : s2.diskDeps = s.diskDeps := by rw [hs2]
  cases E with
  | error m => exact ⟨hs2sv, hs2dk⟩
  | ok inst =>
    dsimp only
    rcases hil : installLoop o true inst
        (if names.isEmpty then cfg else names) cfg s2 with ⟨lr, cfg', s3⟩
    obtain ⟨hv3, hd3⟩ := installLoop_global_frame o inst
      (if names.isEmpty then cfg else names) cfg s2
    rw [hil] at hv3 hd3
    simp only at hv3 hd3
    cases lr with
    | raised m => exact ⟨hv3.trans hs2sv, hd3.trans hs2dk⟩
    | finished =>
      dsimp only
      rcases hgm : getMissingDependencies o s3 with ⟨E2, s4⟩
      have hs4 : s4 = { s3 with
          nCalls := s3.nCalls + 1,
          calls := s3.calls ++ [[envPip, "check"]] } := by
        have h := getMissingDependencies_snd o s3
        rw [hgm] at h
        exact h
      have hs4sv : s4.saves = s3.saves := by rw [hs4]
      have hs4dk : s4.diskDeps = s3.diskDeps := by rw [hs4]
      cases E2 with
      | error m =>
        exact ⟨(hs4sv.trans hv3).trans hs2sv, (hs4dk.trans hd3).trans hs2dk⟩
      | ok missing =>
        dsimp only
        obtain ⟨r1, r2⟩ := recLoop_frame rec hrec missing s4
        exact ⟨((r1.trans hs4sv).trans hv3).trans hs2sv,
          ((r2.trans hs4dk).trans hd3).trans hs2dk⟩

/-- A whole global-mode `install` — any fuel, any script, any request,
including the recursive missing-dependency passes — never saves the
manifest and never changes the on-disk dependency list. -/
theorem install_global_frame :
    ∀ (fuel : Nat) (o : Oracle) (names : List String) (s : PMState),
      (install fuel o names true s).2.saves = s.saves ∧
      (install fuel o names true s).2.diskDeps = s.diskDeps := by
  intro fuel
  induction fuel with
  | zero => intro o names s; exact ⟨rfl, rfl⟩
  | succ fuel ih =>
    intro o names s
    simp only [install, loadConfig]
    by_cases he : s.envExists = true
    · rw [if_pos he]
      exact installPass_global_frame o _ (fun ns t => ih o ns t)
        s.diskDeps names { s with loads := s.loads + 1 }
    · rw [if_neg he]
      exact installPass_global_frame o _ (fun ns t => ih o ns t)
        s.diskDeps names (createVenv { s with loads := s.loads + 1 })

/-- C4, amended: with the global flag set, `install` and `uninstall` never
write the manifest's dependency list — no save happens and the stored
list is unchanged, for every fuel, script, request and state (hence for
every outcome); the list is, however, read by a global `install` with an
empty name list, where it supplies the work list (see the
counterexample). -/
theorem C4_amended_global_never_writes (fuel : Nat) (o : Oracle)
    (names : List String) (s : PMState) :
    (install fuel o names true s).2.saves = s.saves ∧
    (install fuel o names true s).2.diskDeps = s.diskDeps ∧
    (uninstall o names true s).2.saves = s.saves ∧
    (uninstall o names true s).2.diskDeps = s.diskDeps := by
  obtain ⟨h1, h2⟩ := install_global_frame fuel o names s
  refine ⟨h1, h2, ?_, ?_⟩ <;>
    · unfold uninstall loadConfig spRun
      by_cases he : s.envExists = true <;> simp [he]

/-- Witness for the amended C4 at a concrete input: a global install of
`x==1` against a manifest holding `a==1` neither saves nor changes the
stored dependency list. -/
theorem C4_witness :
    (install 3 zeroOracle ["x==1"] true (initState true ["a==1"])).2.saves
      = (initState true ["a==1"]).saves ∧
    (install 3 zeroOracle ["x==1"] true (initState true ["a==1"])).2.diskDeps
      = (initState true ["a==1"]).diskDeps ∧
    (uninstall zeroOracle ["x==1"] true (initState true ["a==1"])).2.saves
      = (initState true ["a==1"]).saves ∧
    (uninstall zeroOracle ["x==1"] true (initState true ["a==1"])).2.diskDeps
      = (initState true ["a==1"]).diskDeps :=
  C4_amended_global_never_writes 3 zeroOracle ["x==1"] (initState true ["a==1"])

/-- The work loop skips every entry that occurs verbatim in the installed
snapshot: no process spawned, no state change, no config change. -/
theorem installLoop_all_skipped (o : Oracle) (g : Bool)
    (installed : List String) (l : List String) :
    ∀ (cfg : List String) (s : PMState), (∀ p ∈ l, p ∈ installed) →
      installLoop o g installed l cfg s = (.finished, cfg, s) := by
  induction l with
  | nil => intro cfg s _; rfl
  | cons p ps ih =>
    intro cfg s h
    have hp : p ∈ installed := h p (List.mem_cons_self p ps)
    simp only [installLoop, if_pos hp]
    exact ih cfg s fun q hq => h q (List.mem_cons_of_mem p hq)

/-- C3, amended: a work-list entry is skipped when the entry string
itself occurs verbatim among the freeze snapshot lines — for a request
whose entries all occur verbatim, the pass performs no install-subcommand
invocation at all, never saves, leaves the on-disk dependency list as it
was, and exits 0.  Bare-name presence inside a `name==version` snapshot
line does not trigger the skip (see the counterexample). -/
theorem C3_amended_verbatim_skip (names deps : List String)
    (freezeOut : String) (hne : names ≠ [])
    (hall : ∀ n ∈ names, n ∈ pySplit freezeOut "\n") :
    (install 1 (skipOracle freezeOut) names false (initState true deps)).1
      = .ok 0 ∧
    ((install 1 (skipOracle freezeOut) names false
        (initState true deps)).2.calls.filter isInstallCmd) = [] ∧
    (install 1 (skipOracle freezeOut) names false
        (initState true deps)).2.diskDeps = deps ∧
    (install 1 (skipOracle freezeOut) names false
        (initState true deps)).2.saves = 0 := by
  obtain ⟨n, ns, rfl⟩ : ∃ a l, names = a :: l := by
    cases names with
    | nil => exact absurd rfl hne
    | cons a l => exact ⟨a, l, rfl⟩
  have hloop : ∀ (cfg : List String) (t : PMState),
      installLoop (skipOracle freezeOut) false (pySplit freezeOut "\n")
        (n :: ns) cfg t = (.finished, cfg, t) :=
    fun cfg t =>
      installLoop_all_skipped (skipOracle freezeOut) false
        (pySplit freezeOut "\n") (n :: ns) cfg t hall
  refine ⟨?_, ?_, ?_, ?_⟩
  all_goals
    simp [install, loadConfig, installPass, getInstalledPackages, spRun,
      pipBin, skipOracle, getMissingDependencies, initState, hloop, recLoop,
      isInstallCmd, show findallRequires "" = [] from rfl]

/-- Witness for the amended C3 at a concrete input: requesting the
verbatim snapshot entry `requests==2.26.0` is skipped — no install
subcommand is spawned. -/
theorem C3_witness :
    (∀ n ∈ (["requests==2.26.0"] : List String),
      n ∈ pySplit "requests==2.26.0" "\n") ∧
    ((install 1 (skipOracle "requests==2.26.0") ["requests==2.26.0"] false
        (initState true ["requests==2.26.0"])).2.calls.filter isInstallCmd)
      = [] :=
  ⟨by decide,
    (C3_amended_verbatim_skip ["requests==2.26.0"] ["requests==2.26.0"]
      "requests==2.26.0" (by decide) (by decide)).2.1⟩

/-- One pass of the cycle scenario: the requested entry is not in the
snapshot, so it is installed (silently) and the check then reports the
missing names B and A, which are handed to the recursion with the state
advanced by one load, three process spawns and one save. -/
theorem cycle_pass (rec : List String → PMState → Outcome × PMState)
    (cfg : List String) (n : String) (s : PMState)
    (hmod : s.nCalls % 3 = 0)
    (hn : n ∉ (["A==1.0", "B==1.0"] : List String)) :
    installPass cycleOracle false rec cfg [n] s
      = recLoop rec ["B", "A"]
          { s with
            diskDeps := cfg,
            nCalls := s.nCalls + 1 + 1 + 1,
            calls := s.calls ++ [[envPip, "freeze"]]
              ++ [[envPip, "install", n]] ++ [[envPip, "check"]],
            saves := s.saves + 1 } := by
  have h0 : cycleOracle s.nCalls = ⟨0, "A==1.0\nB==1.0", ""⟩ := by
    unfold cycleOracle; rw [hmod]
  have h1 : cycleOracle (s.nCalls + 1) = ⟨0, "", ""⟩ := by
    unfold cycleOracle; rw [show (s.nCalls + 1) % 3 = 1 by omega]
  have h2 : cycleOracle (s.nCalls + 1 + 1) = ⟨0, cycleCheckOut, ""⟩ := by
    unfold cycleOracle; rw [show (s.nCalls + 1 + 1) % 3 = 2 by omega]
  simp [installPass, getInstalledPackages, spRun, pipBin, h0, h1, h2,
    installLoop, installPackageF, getMissingDependencies, applyLines,
    applyTokens, saveConfig, hn,
    show pySplit "A==1.0\nB==1.0" "\n" = ["A==1.0", "B==1.0"] from by decide,
    show pySplit "" "\n" = [""] from by decide,
    show pyStartsWith "" "Successfully installed" = false from by decide,
    show findallRequires cycleCheckOut = ["B", "A"] from by decide]

/-- If the first recursive sub-install runs out of fuel, so does the
missing-dependency loop. -/
theorem recLoop_first_fuelOut (f : List String → PMState → Outcome × PMState)
    (d : String) (ds : List String) (s : PMState)
    (h : (f [d] s).1 = .fuelOut) :
    (recLoop f (d :: ds) s).1 = .fuelOut := by
  rcases hfd : f [d] s with ⟨out, s'⟩
  rw [hfd] at h
  simp only at h
  subst h
  simp only [recLoop, hfd]

/-- In the cycle scenario, every fuel bound is exhausted: each pass ends
by recursing on the reported missing name B, whose pass again reports
B and A missing, without end. -/
theorem cycle_install_fuelOut :
    ∀ (fuel : Nat) (s : PMState) (n : String), s.envExists = true →
      s.nCalls % 3 = 0 → n ∉ (["A==1.0", "B==1.0"] : List String) →
      (install fuel cycleOracle [n] false s).1 = .fuelOut := by
  intro fuel
  induction fuel with
  | zero => intro s n _ _ _; rfl
  | succ fuel ih =>
    intro s n henv hmod hn
    simp only [install, loadConfig]
    rw [if_pos
      (show ({ s with loads := s.loads + 1 } : PMState).envExists = true
        from henv)]
    rw [cycle_pass _ s.diskDeps n { s with loads := s.loads + 1 }
      (show ({ s with loads := s.loads + 1 } : PMState).nCalls % 3 = 0
        from hmod) hn]
    apply recLoop_first_fuelOut
    apply ih
    · exact henv
    · show (s.nCalls + 1 + 1 + 1) % 3 = 0
      omega
    · decide

/-- C6: the claim says a check output reporting the dependency cycle
(A requires B, B requires A) makes `install` terminate with a
`DependencyCycleError`.  No such error exists in the code (lines 151-153
have no cycle guard at all): in the cycle scenario the recursion on the
reported missing name B re-runs forever — here, it exhausts every fuel
bound, the model of unbounded recursion — and no dedicated error is ever
raised. -/
theorem C6_cycle_exhausts_all_fuel (fuel : Nat) :
    (install fuel cycleOracle ["C"] false (initState true [])).1
      = .fuelOut :=
  cycle_install_fuelOut fuel (initState true []) "C" rfl rfl (by decide)

/-- Witness for C6 at a concrete fuel bound: seven levels of recursion
are exhausted without any error being raised. -/
theorem C6_witness :
    (install 7 cycleOracle ["C"] false (initState true [])).1
      = Outcome.fuelOut :=
  C6_cycle_exhausts_all_fuel 7

/-- C8, amended: the manifest is persisted exactly once per work-list
entry whose isolated-mode installer invocation succeeds — the save sits
inside the per-package helper, immediately after the dependency-list
update (the on-disk list then equals the helper's in-memory result) — so
a top-level invocation may persist several times, not at most once. -/
theorem C8_amended_save_per_package (o : Oracle) (p : String)
    (cfg : List String) (s : PMState)
    (h : (installPackageF o false p none false cfg s).1 = .val (some 0)) :
    (installPackageF o false p none false cfg s).2.2.saves = s.saves + 1 ∧
    (installPackageF o false p none false cfg s).2.2.diskDeps
      = (installPackageF o false p none false cfg s).2.1 := by
  by_cases hrc : (o s.nCalls).returncode ≠ 0
  · rw [show (installPackageF o false p none false cfg s).1
        = .val (some (o s.nCalls).returncode) from by
      simp [installPackageF, spRun, hrc]] at h
    simp only [IPRes.val.injEq, Option.some.injEq] at h
    exact absurd h hrc
  · simp only [installPackageF, spRun] at h ⊢
    rcases hap : applyLines cfg (pySplit (o s.nCalls).stdout "\n")
      with ⟨b, cfg'⟩
    cases b <;> simp_all [saveConfig]

/-- Witness for the amended C8 at a concrete input: the successful
install of `a` saves the manifest exactly once. -/
theorem C8_witness :
    (installPackageF oracleC8 false "a" none false []
        { initState true [] with nCalls := 1 }).1 = IPRes.val (some 0) ∧
    (installPackageF oracleC8 false "a" none false []
        { initState true [] with nCalls := 1 }).2.2.saves
      = { initState true [] with nCalls := 1 }.saves + 1 :=
  ⟨by decide,
    (C8_amended_save_per_package oracleC8 "a" []
      { initState true [] with nCalls := 1 } (by decide)).1⟩

/-! ## No-duplicates preservation (C10) -/

/-- Appending a fresh element preserves distinctness. -/
theorem nodup_snoc {l : List String} {v : String} (h : l.Nodup)
    (hv : v ∉ l) : (l ++ [v]).Nodup := by
  simp [List.nodup_append, h, hv]

/-- The token loop of a `Successfully installed` line appends an entry
only after the `not in` membership test, so it preserves distinctness of
the dependency list (also when it stops at a `ValueError`). -/
theorem applyTokens_nodup (ts : List String) :
    ∀ cfg : List String, cfg.Nodup → (applyTokens cfg ts).2.Nodup := by
  induction ts with
  | nil => intro cfg h; exact h
  | cons t ts ih =>
    intro cfg h
    simp only [applyTokens]
    rcases hr : rsplitDash1 t with _ | ⟨nm, v⟩
    · exact h
    · dsimp only
      by_cases hm : (nm ++ "==" ++ v) ∈ cfg
      · rw [if_pos hm]
        exact ih cfg h
      · rw [if_neg hm]
        exact ih _ (nodup_snoc h hm)

/-- The line loop over the install stdout preserves distinctness of the
dependency list. -/
theorem applyLines_nodup (ls : List String) :
    ∀ cfg : List String, cfg.Nodup → (applyLines cfg ls).2.Nodup := by
  induction ls with
  | nil => intro cfg h; exact h
  | cons l ls ih =>
    intro cfg h
    simp only [applyLines]
    by_cases hs : pyStartsWith l "Successfully installed" = true
    · rw [if_pos hs]
      rcases hap : applyTokens cfg ((pySplit l " ").drop 2) with ⟨b, cfg'⟩
      have hc : cfg'.Nodup := by
        have hh := applyTokens_nodup ((pySplit l " ").drop 2) cfg h
        rw [hap] at hh
        exact hh
      cases b
      · exact ih cfg' hc
      · exact hc
    · rw [if_neg hs]
      exact ih cfg h

/-- `installPackage` preserves distinctness of both the in-memory and the
on-disk dependency list, in every mode and for every outcome. -/
theorem installPackageF_nodup (o : Oracle) (g : Bool) (p : String)
    (v : Option String) (d : Bool) (cfg : List String) (s : PMState)
    (hc : cfg.Nodup) (hd : s.diskDeps.Nodup) :
    (installPackageF o g p v d cfg s).2.1.Nodup ∧
    (installPackageF o g p v d cfg s).2.2.diskDeps.Nodup := by
  cases g with
  | true =>
    obtain ⟨_, hcfg, _, hdk⟩ := installPackageF_global_frame o p v d cfg s
    rw [hcfg, hdk]
    exact ⟨hc, hd⟩
  | false =>
    by_cases hrc : (o s.nCalls).returncode ≠ 0
    · refine ⟨?_, ?_⟩ <;> simp [installPackageF, spRun, hrc, hc, hd]
    · simp only [installPackageF, spRun]
      rcases hap : applyLines cfg (pySplit (o s.nCalls).stdout "\n")
        with ⟨b, cfg'⟩
      have hc' : cfg'.Nodup := by
        have hh := applyLines_nodup (pySplit (o s.nCalls).stdout "\n") cfg hc
        rw [hap] at hh
        exact hh
      cases b <;> refine ⟨?_, ?_⟩ <;>
        simp [saveConfig, hap, hrc, hc', hd]

/-- The work loop preserves distinctness of both the in-memory and the
on-disk dependency list. -/
theorem installLoop_nodup (o : Oracle) (g : Bool) (installed : List String)
    (l : List String) :
    ∀ (cfg : List String) (s : PMState), cfg.Nodup → s.diskDeps.Nodup →
      (installLoop o g installed l cfg s).2.1.Nodup ∧
      (installLoop o g installed l cfg s).2.2.diskDeps.Nodup := by
  induction l with
  | nil => intro cfg s hc hd; exact ⟨hc, hd⟩
  | cons p ps ih =>
    intro cfg s hc hd
    by_cases hp : p ∈ installed
    · simpa only [installLoop, if_pos hp] using ih cfg s hc hd
    · simp only [installLoop, if_neg hp]
      obtain ⟨h1, h2⟩ := installPackageF_nodup o g p none false cfg s hc hd
      rcases hipf : installPackageF o g p none false cfg s with ⟨ir, cfg', s'⟩
      rw [hipf] at h1 h2
      simp only at h1 h2
      cases ir with
      | val r => exact ih cfg' s' h1 h2
      | raised m => exact ⟨h1, h2⟩

/-- The missing-dependency loop preserves distinctness of the on-disk
dependency list whenever its recursive calls do. -/
theorem recLoop_nodup (f : List String → PMState → Outcome × PMState)
    (hf : ∀ ns t, t.diskDeps.Nodup → (f ns t).2.diskDeps.Nodup) :
    ∀ (ds : List String) (s : PMState), s.diskDeps.Nodup →
      (recLoop f ds s).2.diskDeps.Nodup := by
  intro ds
  induction ds with
  | nil => intro s h; exact h
  | cons dep ds ihd =>
    intro s h
    have h1 := hf [dep] s h
    rcases hfd : f [dep] s with ⟨out, s'⟩
    rw [hfd] at h1
    cases out with
    | ok c => simp only [recLoop, hfd]; exact ihd s' h1
    | raised m => simp only [recLoop, hfd]; exact h1
    | fuelOut => simp only [recLoop, hfd]; exact h1

/-- A reconciliation pass preserves distinctness of the on-disk
dependency list whenever its recursive calls do. -/
theorem installPass_nodup (o : Oracle) (g : Bool)
    (rec : List String → PMState → Outcome × PMState)
    (hrec : ∀ ns t, t.diskDeps.Nodup → (rec ns t).2.diskDeps.Nodup)
    (cfg names : List String) (s : PMState)
    (hc : cfg.Nodup) (hd : s.diskDeps.Nodup) :
    (installPass o g rec cfg names s).2.diskDeps.Nodup := by
  unfold installPass
  rcases hgi : getInstalledPackages o g s with ⟨E, s2⟩
  have hs2 : s2 = { s with
      nCalls := s.nCalls + 1,
      calls := s.calls ++ [[pipBin g, "freeze"]] } := by
    have h := getInstalledPackages_snd o g s
    rw [hgi] at h
    exact h
  have hd2 : s2.diskDeps.Nodup := by rw [hs2]; exact hd
  cases E with
  | error m => exact hd2
  | ok inst =>
    dsimp only
    rcases hil : installLoop o g inst
        (if names.isEmpty then cfg else names) cfg s2 with ⟨lr, cfg', s3⟩
    obtain ⟨hc3, hd3⟩ := installLoop_nodup o g inst
      (if names.isEmpty then cfg else names) cfg s2 hc hd2
    rw [hil] at hc3 hd3
    simp only at hc3 hd3
    cases lr with
    | raised m => exact hd3
    | finished =>
      dsimp only
      rcases hgm : getMissingDependencies o s3 with ⟨E2, s4⟩
      have hs4 : s4 = { s3 with
          nCalls := s3.nCalls + 1,
          calls := s3.calls ++ [[envPip, "check"]] } := by
        have h := getMissingDependencies_snd o s3
        rw [hgm] at h
        exact h
      have hd4 : s4.diskDeps.Nodup := by rw [hs4]; exact hd3
      cases E2 with
      | error m => exact hd4
      | ok missing =>
        dsimp only
        exact recLoop_nodup rec hrec missing s4 hd4

/-- C10: if the manifest's dependency list has no duplicates before an
isolated-mode `install` — any fuel, script, request and state, recursive
sub-installs included — it has none afterwards: every token parsed from
the installer's `Successfully installed` output is appended only when the
resulting `name==version` string is not already in the list. -/
theorem C10_nodup_preserved :
    ∀ (fuel : Nat) (o : Oracle) (names : List String) (s : PMState),
      s.diskDeps.Nodup →
      (install fuel o names false s).2.diskDeps.Nodup := by
  intro fuel
  induction fuel with
  | zero => intro o names s h; exact h
  | succ fuel ih =>
    intro o names s h
    simp only [install, loadConfig]
    by_cases he : s.envExists = true
    · rw [if_pos he]
      exact installPass_nodup o false _ (fun ns t ht => ih o ns t ht)
        s.diskDeps names { s with loads := s.loads + 1 } h h
    · rw [if_neg he]
      exact installPass_nodup o false _ (fun ns t ht => ih o ns t ht)
        s.diskDeps names (createVenv { s with loads := s.loads + 1 }) h h

/-- Witness for C10 at a concrete input: installing `a` and `b` grows the
manifest to `a==1.0, b==1.0`, still duplicate-free. -/
theorem C10_witness :
    (initState true []).diskDeps.Nodup ∧
    (install 5 oracleC8 ["a", "b"] false (initState true [])).2.diskDeps
      = ["a==1.0", "b==1.0"] ∧
    (install 5 oracleC8 ["a", "b"] false (initState true [])).2.diskDeps.Nodup :=
  ⟨by decide, by decide,
    C10_nodup_preserved 5 oracleC8 ["a", "b"] (initState true []) (by decide)⟩

end PM
